import Mathlib

/-!
Verification of the trust-establishment subsystem of `nikogura/k8sctl`
(package `oidc` and the client helpers in `cmd/auth_common.go` /
`cmd/server.go`) against its natural-language specification.

The Go code is shallowly embedded: JSON claim values become an inductive
`JVal` (Go's `float64` JSON numbers are modelled as exact rationals, with
the `int64(...)` conversion modelled as truncation toward zero);
`jwt.MapClaims` becomes an association list; fallible functions return
`Except`; the cryptographic parts of `jwt.Parse` (key-function resolution,
signature verification) are modelled with signatures as opaque strings, a
signature being valid exactly when it matches the resolved key material.
-/

set_option autoImplicit false

namespace K8sctl

/-! ## Go standard-library string helpers used by the sources

`strings.SplitN(s, " ", 2)`, `strings.ToLower`, `strings.TrimSpace` and
`strings.Split(s, ",")` are re-implemented at the character level so that
every definition evaluates inside the kernel.  `ToLower`/`TrimSpace` are
modelled on ASCII input (the configuration strings and the literal
`"bearer"` comparison in the middleware are ASCII). -/

/-- Split a character list at its first space: `none` when no space occurs,
otherwise the characters before the first space and all characters after it
(later spaces are untouched), as in Go's `strings.SplitN(s, " ", 2)`. -/
def splitFirstSpace : List Char → Option (List Char × List Char)
  | [] => none
  | c :: cs =>
    if c = ' ' then some ([], cs)
    else
      match splitFirstSpace cs with
      | none => none
      | some (l, r) => some (c :: l, r)

/-- Go's `strings.SplitN(s, " ", 2)`: a one-element list when `s` has no
space, otherwise the part before the first space and the remainder. -/
def splitN2 (s : String) : List String :=
  match splitFirstSpace s.toList with
  | none => [s]
  | some (l, r) => [String.mk l, String.mk r]

/-- ASCII lower-casing of one character, as Go's `strings.ToLower` acts on
ASCII letters. -/
def goLowerChar (c : Char) : Char :=
  if 'A' ≤ c ∧ c ≤ 'Z' then Char.ofNat (c.toNat + 32) else c

/-- Go's `strings.ToLower`, restricted to ASCII. -/
def goToLower (s : String) : String :=
  String.mk (s.toList.map goLowerChar)

/-- The white-space characters recognised by Go's `unicode.IsSpace` in the
ASCII range (space, tab, newline, vertical tab, form feed, carriage
return). -/
def isGoSpace (c : Char) : Bool :=
  c ∈ [' ', '\t', '\n', '\r', Char.ofNat 11, Char.ofNat 12]

/-- Drop leading Go white-space characters. -/
def dropLeadingSpace : List Char → List Char
  | [] => []
  | c :: cs => if isGoSpace c then dropLeadingSpace cs else c :: cs

/-- Go's `strings.TrimSpace`, restricted to ASCII white space: remove
leading and trailing white-space characters. -/
def goTrimSpace (s : String) : String :=
  String.mk ((dropLeadingSpace (dropLeadingSpace s.toList).reverse).reverse)

/-- Split a character list at every comma, as Go's `strings.Split(s, ",")`
splits a string. -/
def splitAtCommas : List Char → List (List Char)
  | [] => [[]]
  | c :: cs =>
    if c = ',' then [] :: splitAtCommas cs
    else
      match splitAtCommas cs with
      | [] => [[c]]
      | l :: ls => (c :: l) :: ls

/-- Go's `strings.Split(s, ",")`. -/
def goSplitCommas (s : String) : List String :=
  (splitAtCommas s.toList).map String.mk

/-! ## JSON claim values and `jwt.MapClaims` -/

/-- A decoded JSON value as Go's `encoding/json` produces it inside an
`interface{}`: strings, numbers (Go `float64`, modelled as an exact
rational), booleans, `nil`, and arrays (`[]interface{}`).  JSON objects
never occur in the claims the code inspects and are omitted. -/
inductive JVal where
  | jstr (s : String)
  | jnum (q : ℚ)
  | jbool (b : Bool)
  | jnull
  | jarr (xs : List JVal)

/-- `jwt.MapClaims`: a map from claim names to decoded JSON values,
modelled as an association list (first binding wins, as a Go map has at
most one binding per key). -/
abbrev MapClaims := List (String × JVal)

/-- Go map indexing `mapClaims[k]`: the value bound to `k`, if any. -/
def getClaim (mc : MapClaims) (k : String) : Option JVal :=
  match mc with
  | [] => none
  | (k', v) :: rest => if k' = k then some v else getClaim rest k

/-- Collect the strings of a `[]interface{}` value, skipping non-string
entries — the loop shape used by both `extractAudiences` and
`extractUserGroups`. -/
def stringsOf (xs : List JVal) : List String :=
  xs.filterMap fun v =>
    match v with
    | .jstr s => some s
    | _ => none

/-- Go's `int64(f)` conversion of a `float64`: truncation toward zero. -/
def int64Trunc (q : ℚ) : Int := Int.tdiv q.num q.den

/-! ## `oidc.Config` and `oidc.LoadConfigFromEnv` -/

/-- `oidc.Config`: issuer URL, expected audience, allowed groups. -/
structure Config where
  issuerURL : String
  audience : String
  allowedGroups : List String
  deriving DecidableEq, Repr

/-- The relevant environment variables, as `os.Getenv` reports them: an
unset variable reads as the empty string. -/
structure Env where
  oidcIssuerURL : String
  oidcAudience : String
  oidcAllowedGroups : String
  deriving DecidableEq, Repr

/-- The allowed-groups parsing loop of `oidc.LoadConfigFromEnv`: when the
variable is non-empty, split on commas, trim each entry, and keep the
non-empty ones. -/
def parseAllowedGroups (s : String) : List String :=
  if s = "" then []
  else ((goSplitCommas s).map goTrimSpace).filter (· ≠ "")

/-- `oidc.LoadConfigFromEnv`. -/
def LoadConfigFromEnv (env : Env) : Config :=
  { issuerURL := env.oidcIssuerURL
    audience := env.oidcAudience
    allowedGroups := parseAllowedGroups env.oidcAllowedGroups }

/-- The configuration with which `serverCmd` (cmd/server.go) constructs the
OIDC validator: `none` when the command aborts via `log.Fatalf` because
`OIDC_ISSUER_URL` or `OIDC_AUDIENCE` is empty; otherwise the loaded
configuration, with `AllowedGroups` defaulted to `["engineering"]` when the
parsed list is empty. -/
def serverStartConfig (env : Env) : Option Config :=
  let cfg := LoadConfigFromEnv env
  if cfg.issuerURL = "" then none
  else if cfg.audience = "" then none
  else if cfg.allowedGroups.isEmpty then
    some { cfg with allowedGroups := ["engineering"] }
  else some cfg

/-! ## Validation failures

One constructor per distinct error the `oidc` package (or the `jwt.Parse`
call it makes) can produce, carrying the values the Go error messages
interpolate. -/

/-- The failures of token validation. `parseFailed` is `ValidateToken`'s
wrapping of any error returned by `jwt.Parse` ("failed to parse token:
%w"). -/
inductive OidcErr where
  | unsupportedAlg
  | missingKid
  | keyNotFound (kid : String)
  | keyMissingPublicKey (kid : String)
  | invalidSignature
  | invalidIssuer (expected got : String)
  | invalidAudienceClaimType
  | invalidAudience (expected : String) (got : List String)
  | missingOrInvalidExp
  | tokenExpired
  | missingGroupsClaim
  | invalidGroupsClaimType
  | groupNotAllowed (userGroups allowed : List String)
  | parseFailed (e : OidcErr)
  deriving DecidableEq, Repr

/-! ## Tokens, signing methods, and the JWKS key store -/

/-- The signing method recorded in a token's JOSE header, as `golang-jwt`
represents it.  `getKeyFunc` accepts exactly the `*jwt.SigningMethodRSA`
family (`RS256/384/512`); RSA-PSS, ECDSA and Ed25519 are distinct method
types in the library. -/
inductive SigningMethod where
  | rsa
  | rsapss
  | ecdsa
  | ed25519
  | hmac
  | noneAlg
  deriving DecidableEq, Repr

/-- Whether the method is an asymmetric (public-key) scheme. -/
def SigningMethod.isAsymmetric : SigningMethod → Bool
  | .hmac => false
  | .noneAlg => false
  | _ => true

/-- A structurally well-formed JWT after decoding: the header fields the
code reads (`alg` as the resolved signing method, `kid` as a raw JSON
value, since `getKeyFunc` type-asserts it to a string), the payload
claims, and the signature.  Signature bytes are modelled as the key
material that produced them: verification succeeds exactly when the
signature equals the resolved public key. -/
structure Token where
  method : SigningMethod
  kidHeader : Option JVal
  claims : MapClaims
  sig : String

/-- The JWKS key store contents: key id → public key material, where a
stored `none` models a JWK whose `Key()` is nil. -/
abbrev JWKS := List (String × Option String)

/-- `jwkset` storage lookup by key id. -/
def keyRead (jwks : JWKS) (kid : String) : Option (Option String) :=
  match jwks with
  | [] => none
  | (k, v) :: rest => if k = kid then some v else keyRead rest kid

/-- `(*Validator).getKeyFunc`: reject non-RSA signing methods, require a
string `kid` header, look the key up in the JWKS store, and reject a JWK
with no public key. -/
def getKeyFunc (jwks : JWKS) (t : Token) : Except OidcErr String :=
  match t.method with
  | .rsa =>
    match t.kidHeader with
    | some (.jstr kid) =>
      match keyRead jwks kid with
      | none => .error (.keyNotFound kid)
      | some none => .error (.keyMissingPublicKey kid)
      | some (some key) => .ok key
    | _ => .error .missingKid
  | _ => .error .unsupportedAlg

/-- The `jwt.Parse(tokenString, v.getKeyFunc)` call of `ValidateToken`:
resolve the key via the key function (any key-function error aborts the
parse), then verify the signature against the resolved key.  On success
the parsed token carries the payload claims. -/
def jwtParse (jwks : JWKS) (t : Token) : Except OidcErr MapClaims :=
  match getKeyFunc jwks t with
  | .error e => .error e
  | .ok key => if t.sig = key then .ok t.claims else .error .invalidSignature

/-! ## The claim-verification gates of `oidc.Validator` -/

/-- `(*Validator).verifyIssuer`: the `iss` claim must be a string equal to
the configured issuer URL (a non-string or absent claim fails with the Go
`got` rendered from the zero-value string). -/
def verifyIssuer (cfg : Config) (mc : MapClaims) : Except OidcErr Unit :=
  match getClaim mc "iss" with
  | some (.jstr s) =>
    if s = cfg.issuerURL then .ok ()
    else .error (.invalidIssuer cfg.issuerURL s)
  | _ => .error (.invalidIssuer cfg.issuerURL "")

/-- `(*Validator).extractAudiences`: a string `aud` claim yields a
one-element list; a `[]interface{}` claim yields its string entries
(non-strings skipped); anything else (including an absent claim) is an
invalid audience claim type. -/
def extractAudiences (mc : MapClaims) : Except OidcErr (List String) :=
  match getClaim mc "aud" with
  | some (.jstr s) => .ok [s]
  | some (.jarr xs) => .ok (stringsOf xs)
  | _ => .error .invalidAudienceClaimType

/-- `(*Validator).verifyAudience`: the configured audience must be a
member of the extracted audience list. -/
def verifyAudience (cfg : Config) (mc : MapClaims) : Except OidcErr Unit :=
  match extractAudiences mc with
  | .error e => .error e
  | .ok audiences =>
    if cfg.audience ∈ audiences then .ok ()
    else .error (.invalidAudience cfg.audience audiences)

/-- `(*Validator).verifyExpiration`: the `exp` claim must be a number
(`float64`), and the current Unix time must not exceed `int64(exp)`. -/
def verifyExpiration (now : Int) (mc : MapClaims) : Except OidcErr Unit :=
  match getClaim mc "exp" with
  | some (.jnum e) =>
    if int64Trunc e < now then .error .tokenExpired else .ok ()
  | _ => .error .missingOrInvalidExp

/-- `(*Validator).extractUserGroups`: absent `groups` claim is an error; a
`[]interface{}` claim yields its string entries (non-strings skipped, and
the Go `[]string` case is the same list); anything else is an invalid
groups claim type. -/
def extractUserGroups (mc : MapClaims) : Except OidcErr (List String) :=
  match getClaim mc "groups" with
  | none => .error .missingGroupsClaim
  | some (.jarr xs) => .ok (stringsOf xs)
  | some _ => .error .invalidGroupsClaimType

/-- `(*Validator).verifyGroupMembership`: skipped when no groups are
configured; otherwise the extracted user groups must intersect the
allowed groups. -/
def verifyGroupMembership (cfg : Config) (mc : MapClaims) : Except OidcErr Unit :=
  if cfg.allowedGroups.isEmpty then .ok ()
  else
    match extractUserGroups mc with
    | .error e => .error e
    | .ok userGroups =>
      if userGroups.any (fun g => cfg.allowedGroups.contains g) then .ok ()
      else .error (.groupNotAllowed userGroups cfg.allowedGroups)

/-- `(*Validator).ValidateToken`: parse (key resolution and signature),
then the issuer, audience, expiration and group gates, each aborting on
failure; only when every gate passes are the claims returned. -/
def ValidateToken (cfg : Config) (jwks : JWKS) (now : Int) (t : Token) :
    Except OidcErr MapClaims :=
  match jwtParse jwks t with
  | .error e => .error (.parseFailed e)
  | .ok mc =>
    match verifyIssuer cfg mc with
    | .error e => .error e
    | .ok _ =>
      match verifyAudience cfg mc with
      | .error e => .error e
      | .ok _ =>
        match verifyExpiration now mc with
        | .error e => .error e
        | .ok _ =>
          match verifyGroupMembership cfg mc with
          | .error e => .error e
          | .ok _ => .ok mc

/-! ## `oidc.NewValidator` -/

/-- `oidc.Validator`: configuration plus the JWKS store. -/
structure Validator where
  config : Config
  jwks : JWKS

/-- `oidc.NewValidator`, with the synchronous initial JWKS fetch made
explicit as an argument: on fetch failure the constructor does not fail —
it falls back to fresh (empty) in-memory storage. -/
def NewValidator (cfg : Config) (fetch : Except String JWKS) : Validator :=
  { config := cfg
    jwks :=
      match fetch with
      | .ok s => s
      | .error _ => [] }

/-! ## `oidc.Middleware` -/

/-- Go's `%v`-rendering of a `[]string`. -/
def listRender (xs : List String) : String :=
  "[" ++ String.intercalate " " xs ++ "]"

/-- The message text of each failure, as the Go errors render it (the
`parseFailed` case is `ValidateToken`'s "failed to parse token: %w"
wrapping; `unsupportedAlg` elides the interpolated `alg` header value). -/
def errMessage : OidcErr → String
  | .unsupportedAlg => "unexpected signing method"
  | .missingKid => "token missing kid header"
  | .keyNotFound kid => "failed to find key " ++ kid ++ " in JWKS"
  | .keyMissingPublicKey kid => "key " ++ kid ++ " has no public key"
  | .invalidSignature => "token signature is invalid"
  | .invalidIssuer expected got =>
    "invalid issuer: expected " ++ expected ++ ", got " ++ got
  | .invalidAudienceClaimType => "invalid audience claim type"
  | .invalidAudience expected got =>
    "invalid audience: expected " ++ expected ++ ", got " ++ listRender got
  | .missingOrInvalidExp => "missing or invalid exp claim"
  | .tokenExpired => "token expired"
  | .missingGroupsClaim => "token missing groups claim"
  | .invalidGroupsClaimType => "invalid groups claim type"
  | .groupNotAllowed userGroups allowed =>
    "user not in allowed groups. User groups: " ++ listRender userGroups ++
      ", allowed: " ++ listRender allowed
  | .parseFailed e => "failed to parse token: " ++ errMessage e

/-- The response the middleware produces for one request.  `aborted s r`
models `ctx.AbortWithStatusJSON(s, gin.H)` where the JSON body is the
one-field object binding `"error"` to the reason `r`; `proceeded` models
storing the claims in the context and calling `ctx.Next()`. -/
inductive MWResponse where
  | aborted (status : Nat) (errorReason : String)
  | proceeded (claims : MapClaims)

/-- `oidc.Middleware`, per request: given the validator (as the function a
`*Validator` provides) and the `Authorization` header value (`""` when the
header is absent, as Gin's `GetHeader` reports it), produce the token
string handed to `ValidateToken` (`none` when the validator is never
invoked) and the response. -/
def Middleware (validate : String → Except OidcErr MapClaims)
    (authHeader : String) : Option String × MWResponse :=
  if authHeader = "" then
    (none, .aborted 401 "missing authorization header")
  else
    match splitN2 authHeader with
    | [scheme, tokenString] =>
      if goToLower scheme = "bearer" then
        match validate tokenString with
        | .error e =>
          (some tokenString, .aborted 401 ("invalid token: " ++ errMessage e))
        | .ok claims => (some tokenString, .proceeded claims)
      else (none, .aborted 401 "invalid authorization header format")
    | _ => (none, .aborted 401 "invalid authorization header format")

/-- Whether an `Authorization` header value passes the middleware's header
gate: it splits on its first space into exactly two parts whose first part
lower-cases to `"bearer"`. -/
def wellFormedBearer (authHeader : String) : Bool :=
  match splitN2 authHeader with
  | [scheme, _] => goToLower scheme = "bearer"
  | _ => false

/-! ## Client side: the token-selection step of `cmd.getOIDCToken` -/

/-- `kubectl.DexTokenResponse`, as `cmd.getOIDCToken` consumes it: the
identity-token and access-token fields of the exchange response. -/
structure DexTokenResponse where
  idToken : String
  accessToken : String
  deriving DecidableEq, Repr

/-- The result-selection step of `cmd.getOIDCToken`
(cmd/auth_common.go): take the identity token; if it is empty, fall back
to the access token; if the result is still empty, fail with "no token
received from Dex". -/
def getOIDCTokenResult (resp : DexTokenResponse) : Except String String :=
  let token := resp.idToken
  let token := if token = "" then resp.accessToken else token
  if token = "" then .error "no token received from Dex" else .ok token

/-! ## Helper lemmas about the pipeline -/

theorem stringsOf_map_jstr (xs : List String) : stringsOf (xs.map JVal.jstr) = xs := by
  induction xs with
  | nil => rfl
  | cons x xs ih => simpa [stringsOf] using ih

theorem jwtParse_ok {jwks : JWKS} {t : Token} {mc : MapClaims}
    (h : jwtParse jwks t = .ok mc) :
    mc = t.claims ∧ ∃ key, getKeyFunc jwks t = .ok key ∧ t.sig = key := by
  unfold jwtParse at h
  cases hk : getKeyFunc jwks t with
  | error e => rw [hk] at h; cases h
  | ok key =>
    rw [hk] at h
    by_cases hs : t.sig = key
    · simp only [hs, if_pos rfl] at h
      cases h
      exact ⟨rfl, key, rfl, hs⟩
    · simp only [if_neg hs] at h
      cases h

theorem validateToken_ok {cfg : Config} {jwks : JWKS} {now : Int} {t : Token}
    {c : MapClaims} (h : ValidateToken cfg jwks now t = .ok c) :
    c = t.claims ∧
    jwtParse jwks t = .ok t.claims ∧
    verifyIssuer cfg t.claims = .ok () ∧
    verifyAudience cfg t.claims = .ok () ∧
    verifyExpiration now t.claims = .ok () ∧
    verifyGroupMembership cfg t.claims = .ok () := by
  unfold ValidateToken at h
  split at h
  · exact Except.noConfusion h
  next mc hp =>
    obtain ⟨hmc, -⟩ := jwtParse_ok hp
    subst hmc
    split at h
    · exact Except.noConfusion h
    next u hi =>
      cases u
      split at h
      · exact Except.noConfusion h
      next u ha =>
        cases u
        split at h
        · exact Except.noConfusion h
        next u he =>
          cases u
          split at h
          · exact Except.noConfusion h
          next u hg =>
            cases u
            cases h
            exact ⟨rfl, hp, hi, ha, he, hg⟩

theorem validateToken_expiration_error {cfg : Config} {jwks : JWKS} {now : Int}
    {t : Token} {e : OidcErr}
    (hp : jwtParse jwks t = .ok t.claims)
    (hi : verifyIssuer cfg t.claims = .ok ())
    (ha : verifyAudience cfg t.claims = .ok ())
    (he : verifyExpiration now t.claims = .error e) :
    ValidateToken cfg jwks now t = .error e := by
  unfold ValidateToken
  simp only [hp, hi, ha, he]

theorem validateToken_group_error {cfg : Config} {jwks : JWKS} {now : Int}
    {t : Token} {e : OidcErr}
    (hp : jwtParse jwks t = .ok t.claims)
    (hi : verifyIssuer cfg t.claims = .ok ())
    (ha : verifyAudience cfg t.claims = .ok ())
    (he : verifyExpiration now t.claims = .ok ())
    (hg : verifyGroupMembership cfg t.claims = .error e) :
    ValidateToken cfg jwks now t = .error e := by
  unfold ValidateToken
  simp only [hp, hi, ha, he, hg]

/-! ## The claims -/

/-- C1: for a token whose audience claim is a single string or a list of
strings, the audience check succeeds exactly when the configured expected
audience is a member of those values (a list containing the configured
audience alongside unrelated values passes), and otherwise fails with the
audience-mismatch error; a failed audience check makes the whole
validation fail. -/
theorem C1_audience_membership (cfg : Config) (mc : MapClaims) :
    (∀ s, getClaim mc "aud" = some (.jstr s) →
      ((verifyAudience cfg mc = .ok ()) ↔ cfg.audience = s) ∧
      (cfg.audience ≠ s →
        verifyAudience cfg mc = .error (.invalidAudience cfg.audience [s]))) ∧
    (∀ xs, getClaim mc "aud" = some (.jarr (xs.map JVal.jstr)) →
      ((verifyAudience cfg mc = .ok ()) ↔ cfg.audience ∈ xs) ∧
      (cfg.audience ∉ xs →
        verifyAudience cfg mc = .error (.invalidAudience cfg.audience xs))) ∧
    (∀ jwks now t c, verifyAudience cfg t.claims ≠ .ok () →
      ValidateToken cfg jwks now t ≠ .ok c) := by
  refine ⟨fun s hs => ?_, fun xs hxs => ?_, fun jwks now t c hna hok => ?_⟩
  · by_cases heq : cfg.audience = s
    · simp [verifyAudience, extractAudiences, hs, heq]
    · simp [verifyAudience, extractAudiences, hs, heq]
  · by_cases hmem : cfg.audience ∈ xs
    · simp [verifyAudience, extractAudiences, hxs, stringsOf_map_jstr, hmem]
    · simp [verifyAudience, extractAudiences, hxs, stringsOf_map_jstr, hmem]
  · exact hna (validateToken_ok hok).2.2.2.1

/-- Witness for C1: a list-valued audience claim containing the configured
audience alongside an unrelated value passes the audience check, and one
without it fails with the audience-mismatch error. -/
theorem C1_audience_membership_witness :
    verifyAudience ⟨"https://dex.example.com", "https://svc.example.com", []⟩
      [("aud", .jarr [.jstr "other", .jstr "https://svc.example.com"])] = .ok () ∧
    verifyAudience ⟨"https://dex.example.com", "https://svc.example.com", []⟩
      [("aud", .jarr [.jstr "other"])] =
      .error (.invalidAudience "https://svc.example.com" ["other"]) := by
  constructor
  · exact ((C1_audience_membership ⟨"https://dex.example.com", "https://svc.example.com", []⟩
      [("aud", .jarr [.jstr "other", .jstr "https://svc.example.com"])]).2.1
      ["other", "https://svc.example.com"] rfl).1.mpr (by decide)
  · exact ((C1_audience_membership ⟨"https://dex.example.com", "https://svc.example.com", []⟩
      [("aud", .jarr [.jstr "other"])]).2.1
      ["other"] rfl).2 (by decide)

/-- C2: a token whose `exp` claim is absent or non-numeric fails the
expiration gate with the missing/invalid-expiration error, and can never
validate; a token whose numeric expiration lies in the past never
validates, whatever its other claims; and the gate grants no clock-skew
leeway — it rejects exactly when the current time exceeds the (truncated)
expiration, and passes exactly otherwise. -/
theorem C2_expiration :
    (∀ now mc, (∀ e, getClaim mc "exp" ≠ some (.jnum e)) →
      verifyExpiration now mc = .error .missingOrInvalidExp) ∧
    (∀ now mc e, getClaim mc "exp" = some (.jnum e) →
      ((verifyExpiration now mc = .error .tokenExpired) ↔ int64Trunc e < now) ∧
      ((verifyExpiration now mc = .ok ()) ↔ now ≤ int64Trunc e)) ∧
    (∀ cfg jwks now t e c, getClaim t.claims "exp" = some (.jnum e) →
      int64Trunc e < now → ValidateToken cfg jwks now t ≠ .ok c) ∧
    (∀ cfg jwks now t c, verifyExpiration now t.claims ≠ .ok () →
      ValidateToken cfg jwks now t ≠ .ok c) := by
  refine ⟨fun now mc hne => ?_, fun now mc e he => ?_,
    fun cfg jwks now t e c he hlt hok => ?_, fun cfg jwks now t c hne hok => ?_⟩
  · cases hv : getClaim mc "exp" with
    | none => simp [verifyExpiration, hv]
    | some v =>
      cases v with
      | jnum q => exact absurd hv (hne q)
      | jstr s => simp [verifyExpiration, hv]
      | jbool b => simp [verifyExpiration, hv]
      | jnull => simp [verifyExpiration, hv]
      | jarr xs => simp [verifyExpiration, hv]
  · simp only [verifyExpiration, he]
    by_cases hlt : int64Trunc e < now
    · rw [if_pos hlt]
      exact ⟨⟨fun _ => hlt, fun _ => rfl⟩,
        ⟨fun hE => Except.noConfusion hE, fun hle => absurd hlt (by omega)⟩⟩
    · rw [if_neg hlt]
      exact ⟨⟨fun hE => Except.noConfusion hE, fun hlt2 => absurd hlt2 hlt⟩,
        ⟨fun _ => by omega, fun _ => rfl⟩⟩
  · have hg := (validateToken_ok hok).2.2.2.2.1
    simp [verifyExpiration, he, hlt] at hg
  · exact hne (validateToken_ok hok).2.2.2.2.1

/-- Witness for C2: at time 100, a token with `exp = 50` fails the
expiration gate with the expired error and never validates. -/
theorem C2_expiration_witness :
    verifyExpiration 100 [("exp", JVal.jnum 50)] = .error .tokenExpired ∧
    ValidateToken ⟨"i", "a", []⟩ [] 100
      { method := .rsa, kidHeader := some (.jstr "k"),
        claims := [("exp", JVal.jnum 50)], sig := "s" } ≠ .ok [] := by
  constructor
  · exact (C2_expiration.2.1 100 [("exp", JVal.jnum 50)] 50 rfl).1.mpr (by decide)
  · exact C2_expiration.2.2.1 ⟨"i", "a", []⟩ [] 100
      { method := .rsa, kidHeader := some (.jstr "k"),
        claims := [("exp", JVal.jnum 50)], sig := "s" } 50 [] rfl (by decide)

/-- C3: when the configured allowed-groups set is non-empty, a token with
no groups claim fails the group check with the missing-groups error, a
token whose groups claim is a list of strings disjoint from the allowed
set fails it with the not-allowed error, a token sharing at least one
group passes it, and a failed group check makes the whole validation
fail. -/
theorem C3_group_membership (cfg : Config) (hne : cfg.allowedGroups ≠ []) :
    (∀ mc, getClaim mc "groups" = none →
      verifyGroupMembership cfg mc = .error .missingGroupsClaim) ∧
    (∀ mc (xs : List String),
      getClaim mc "groups" = some (.jarr (xs.map JVal.jstr)) →
      (∀ g, g ∈ xs → g ∉ cfg.allowedGroups) →
      verifyGroupMembership cfg mc =
        .error (.groupNotAllowed xs cfg.allowedGroups)) ∧
    (∀ mc (xs : List String) (g : String),
      getClaim mc "groups" = some (.jarr (xs.map JVal.jstr)) →
      g ∈ xs → g ∈ cfg.allowedGroups →
      verifyGroupMembership cfg mc = .ok ()) ∧
    (∀ jwks now t c, verifyGroupMembership cfg t.claims ≠ .ok () →
      ValidateToken cfg jwks now t ≠ .ok c) := by
  have hempty : cfg.allowedGroups.isEmpty = false := by
    cases h : cfg.allowedGroups with
    | nil => exact absurd h hne
    | cons a l => rfl
  refine ⟨fun mc hg => ?_, fun mc xs hg hdisj => ?_,
    fun mc xs g hg hxs hall => ?_, fun jwks now t c hng hok => ?_⟩
  · simp [verifyGroupMembership, extractUserGroups, hg, hempty]
  · simp [verifyGroupMembership, extractUserGroups, hg, hempty,
      stringsOf_map_jstr]
    exact hdisj
  · simp [verifyGroupMembership, extractUserGroups, hg, hempty,
      stringsOf_map_jstr]
    exact ⟨g, hxs, hall⟩
  · exact hng (validateToken_ok hok).2.2.2.2.2

/-- Witness for C3: with allowed groups `["engineering"]`, a token without
a groups claim fails with the missing-groups error, groups `["finance"]`
fail with the not-allowed error, and groups `["engineering", "sre"]` pass
the group check. -/
theorem C3_group_membership_witness :
    verifyGroupMembership ⟨"i", "a", ["engineering"]⟩ [] =
      .error .missingGroupsClaim ∧
    verifyGroupMembership ⟨"i", "a", ["engineering"]⟩
      [("groups", .jarr [.jstr "finance"])] =
      .error (.groupNotAllowed ["finance"] ["engineering"]) ∧
    verifyGroupMembership ⟨"i", "a", ["engineering"]⟩
      [("groups", .jarr [.jstr "engineering", .jstr "sre"])] = .ok () := by
  refine ⟨?_, ?_, ?_⟩
  · exact (C3_group_membership ⟨"i", "a", ["engineering"]⟩ (by decide)).1 [] rfl
  · exact (C3_group_membership ⟨"i", "a", ["engineering"]⟩ (by decide)).2.1
      [("groups", .jarr [.jstr "finance"])] ["finance"] rfl (by decide)
  · exact (C3_group_membership ⟨"i", "a", ["engineering"]⟩ (by decide)).2.2.1
      [("groups", .jarr [.jstr "engineering", .jstr "sre"])]
      ["engineering", "sre"] "engineering" rfl (by decide) (by decide)

/-- C4: when the initial JWKS fetch fails, construction still yields a
validator (`NewValidator` is total) whose key store is empty, every key
lookup by identifier misses, the key function fails on every token, and
hence every token validation is denied: the store fails closed. -/
theorem C4_fail_closed (cfg : Config) (emsg : String) :
    (NewValidator cfg (.error emsg)).jwks = [] ∧
    (∀ kid, keyRead (NewValidator cfg (.error emsg)).jwks kid = none) ∧
    (∀ t, ∃ e, getKeyFunc (NewValidator cfg (.error emsg)).jwks t = .error e) ∧
    (∀ now t c, ValidateToken (NewValidator cfg (.error emsg)).config
      (NewValidator cfg (.error emsg)).jwks now t ≠ .ok c) := by
  have hkf : ∀ t : Token, ∃ e, getKeyFunc ([] : JWKS) t = .error e := by
    intro t
    obtain ⟨m, kh, cl, sg⟩ := t
    cases m with
    | rsa =>
      cases kh with
      | none => exact ⟨.missingKid, rfl⟩
      | some v =>
        cases v with
        | jstr kid => exact ⟨.keyNotFound kid, rfl⟩
        | jnum q => exact ⟨.missingKid, rfl⟩
        | jbool b => exact ⟨.missingKid, rfl⟩
        | jnull => exact ⟨.missingKid, rfl⟩
        | jarr xs => exact ⟨.missingKid, rfl⟩
    | rsapss => exact ⟨.unsupportedAlg, rfl⟩
    | ecdsa => exact ⟨.unsupportedAlg, rfl⟩
    | ed25519 => exact ⟨.unsupportedAlg, rfl⟩
    | hmac => exact ⟨.unsupportedAlg, rfl⟩
    | noneAlg => exact ⟨.unsupportedAlg, rfl⟩
  refine ⟨rfl, fun kid => rfl, hkf, fun now t c hok => ?_⟩
  have hp := (validateToken_ok hok).2.1
  obtain ⟨-, key, hk, -⟩ := jwtParse_ok hp
  obtain ⟨e, he⟩ := hkf t
  rw [show (NewValidator cfg (.error emsg)).jwks = ([] : JWKS) from rfl] at hk
  rw [hk] at he
  exact Except.noConfusion he

/-- Witness for C4: with a failed initial fetch, the store is empty, a
lookup misses, and a token signed by a known-looking key does not
validate. -/
theorem C4_fail_closed_witness :
    (NewValidator ⟨"i", "a", []⟩ (.error "fetch failed")).jwks = [] ∧
    keyRead (NewValidator ⟨"i", "a", []⟩ (.error "fetch failed")).jwks "key1" =
      none ∧
    ValidateToken (NewValidator ⟨"i", "a", []⟩ (.error "fetch failed")).config
      (NewValidator ⟨"i", "a", []⟩ (.error "fetch failed")).jwks 0
      { method := .rsa, kidHeader := some (.jstr "key1"),
        claims := [], sig := "PUBKEY1" } ≠ .ok [] :=
  ⟨(C4_fail_closed ⟨"i", "a", []⟩ "fetch failed").1,
    (C4_fail_closed ⟨"i", "a", []⟩ "fetch failed").2.1 "key1",
    (C4_fail_closed ⟨"i", "a", []⟩ "fetch failed").2.2.2 0
      { method := .rsa, kidHeader := some (.jstr "key1"),
        claims := [], sig := "PUBKEY1" } []⟩

/-- C5: `ValidateToken` exposes no partial result — whenever it returns
claims with no error, those are exactly the token's claims and every gate
(key resolution, signature, issuer, audience, expiration, groups) passed;
a failure of any gate means no claims are returned (the error constructor
of the result carries none). -/
theorem C5_all_or_nothing (cfg : Config) (jwks : JWKS) (now : Int) (t : Token)
    (c : MapClaims) (h : ValidateToken cfg jwks now t = .ok c) :
    c = t.claims ∧
    (∃ key, getKeyFunc jwks t = .ok key ∧ t.sig = key) ∧
    verifyIssuer cfg t.claims = .ok () ∧
    verifyAudience cfg t.claims = .ok () ∧
    verifyExpiration now t.claims = .ok () ∧
    verifyGroupMembership cfg t.claims = .ok () := by
  obtain ⟨hc, hp, hi, ha, he, hg⟩ := validateToken_ok h
  exact ⟨hc, (jwtParse_ok hp).2, hi, ha, he, hg⟩

/-- A fully valid example configuration, key store and token. -/
def exampleConfig : Config :=
  ⟨"https://dex.example.com", "https://svc.example.com", ["engineering"]⟩

/-- The key store holding the example token's verification key. -/
def exampleJWKS : JWKS := [("key1", some "PUBKEY1")]

/-- A token signed by the example key that satisfies every gate of the
example configuration at time 1000. -/
def exampleToken : Token :=
  { method := .rsa
    kidHeader := some (.jstr "key1")
    claims := [("iss", .jstr "https://dex.example.com"),
      ("aud", .jstr "https://svc.example.com"),
      ("exp", .jnum 2000),
      ("groups", .jarr [.jstr "engineering", .jstr "sre"]),
      ("sub", .jstr "alice")]
    sig := "PUBKEY1" }

/-- Witness for C5: the example token validates, and the theorem recovers
that its group check passed. -/
theorem C5_all_or_nothing_witness :
    ValidateToken exampleConfig exampleJWKS 1000 exampleToken =
      .ok exampleToken.claims ∧
    verifyGroupMembership exampleConfig exampleToken.claims = .ok () :=
  ⟨rfl, (C5_all_or_nothing exampleConfig exampleJWKS 1000 exampleToken
    exampleToken.claims rfl).2.2.2.2.2⟩

/-- C6: a token whose signing-method header is not an asymmetric method
(e.g. HMAC) is rejected by the key function with the unsupported-algorithm
error, and validation fails with exactly that parse-stage error whatever
the key store, signature and claims are — no signature or claim check is
reached. -/
theorem C6_unsupported_alg (cfg : Config) (jwks : JWKS) (now : Int) (t : Token)
    (h : t.method.isAsymmetric = false) :
    getKeyFunc jwks t = .error .unsupportedAlg ∧
    ValidateToken cfg jwks now t = .error (.parseFailed .unsupportedAlg) := by
  have hk : getKeyFunc jwks t = .error .unsupportedAlg := by
    cases hm : t.method with
    | rsa => rw [hm] at h; exact absurd h (by decide)
    | rsapss => rw [hm] at h; exact absurd h (by decide)
    | ecdsa => rw [hm] at h; exact absurd h (by decide)
    | ed25519 => rw [hm] at h; exact absurd h (by decide)
    | hmac => simp [getKeyFunc, hm]
    | noneAlg => simp [getKeyFunc, hm]
  exact ⟨hk, by simp [ValidateToken, jwtParse, hk]⟩

/-- Witness for C6: an HMAC-signed token — even one naming a key the store
holds, with a matching signature — is rejected with the unsupported
algorithm parse error. -/
theorem C6_unsupported_alg_witness :
    ValidateToken ⟨"i", "a", []⟩ [("key1", some "PUBKEY1")] 0
      { method := .hmac, kidHeader := some (.jstr "key1"),
        claims := [], sig := "PUBKEY1" } =
      .error (.parseFailed .unsupportedAlg) :=
  (C6_unsupported_alg ⟨"i", "a", []⟩ [("key1", some "PUBKEY1")] 0
    { method := .hmac, kidHeader := some (.jstr "key1"),
      claims := [], sig := "PUBKEY1" } rfl).2

/-- C7: a missing `Authorization` header, or one that does not split into
a two-part bearer form, is rejected with status 401 and the JSON error
body without the validator ever being invoked (the result is the same
constant for every validator); only a well-formed bearer header hands a
token string to the validator. -/
theorem C7_header_gate (validate : String → Except OidcErr MapClaims)
    (h : String) :
    (h = "" → Middleware validate h =
      (none, .aborted 401 "missing authorization header")) ∧
    (h ≠ "" → wellFormedBearer h = false → Middleware validate h =
      (none, .aborted 401 "invalid authorization header format")) ∧
    (wellFormedBearer h = true →
      ∃ tokenString, (Middleware validate h).1 = some tokenString) := by
  refine ⟨fun he => ?_, fun hne hwf => ?_, fun hwf => ?_⟩
  · simp [Middleware, he]
  · cases hs : splitN2 h with
    | nil => simp [Middleware, hne, hs]
    | cons s1 tail =>
      cases tail with
      | nil => simp [Middleware, hne, hs]
      | cons s2 rest =>
        cases rest with
        | nil =>
          have hb : ¬ goToLower s1 = "bearer" := by
            simpa [wellFormedBearer, hs] using hwf
          simp [Middleware, hne, hs, hb]
        | cons s3 rest2 => simp [Middleware, hne, hs]
  · have hne : h ≠ "" := by
      intro he
      subst he
      rw [show wellFormedBearer "" = false from rfl] at hwf
      exact Bool.noConfusion hwf
    cases hs : splitN2 h with
    | nil => simp [wellFormedBearer, hs] at hwf
    | cons s1 tail =>
      cases tail with
      | nil => simp [wellFormedBearer, hs] at hwf
      | cons s2 rest =>
        cases rest with
        | cons s3 rest2 => simp [wellFormedBearer, hs] at hwf
        | nil =>
          have hb : goToLower s1 = "bearer" := by
            simpa [wellFormedBearer, hs] using hwf
          refine ⟨s2, ?_⟩
          cases hv : validate s2 with
          | error e => simp [Middleware, hne, hs, hb, hv]
          | ok claims => simp [Middleware, hne, hs, hb, hv]

/-- Witness for C7: an absent header and a Basic-scheme header are both
rejected with 401 and the JSON error body, with no validator call. -/
theorem C7_header_gate_witness :
    Middleware (fun _ => .error .missingKid) "" =
      (none, .aborted 401 "missing authorization header") ∧
    Middleware (fun _ => .error .missingKid) "Basic dXNlcg==" =
      (none, .aborted 401 "invalid authorization header format") := by
  constructor
  · exact (C7_header_gate (fun _ => .error .missingKid) "").1 rfl
  · exact (C7_header_gate (fun _ => .error .missingKid) "Basic dXNlcg==").2.1
      (by decide) (by decide)

/-- C10: the middleware's scheme check is case-insensitive — any header
splitting on its first space into exactly two parts whose first part
lower-cases to "bearer" passes the header gate, and the second part (even
the empty string) is handed to the validator as the token string, the
response then being determined by the validator's verdict. -/
theorem C10_case_insensitive_scheme
    (validate : String → Except OidcErr MapClaims)
    (h scheme tokenString : String)
    (hsplit : splitN2 h = [scheme, tokenString])
    (hlow : goToLower scheme = "bearer") :
    (Middleware validate h).1 = some tokenString ∧
    (Middleware validate h).2 =
      (match validate tokenString with
       | .ok claims => .proceeded claims
       | .error e => .aborted 401 ("invalid token: " ++ errMessage e)) := by
  have hne : h ≠ "" := by
    intro he
    subst he
    rw [show splitN2 "" = [""] from rfl] at hsplit
    exact absurd (congrArg List.length hsplit) (by simp)
  cases hv : validate tokenString with
  | error e => simp [Middleware, hne, hsplit, hlow, hv]
  | ok claims => simp [Middleware, hne, hsplit, hlow, hv]

/-- Witness for C10: the header "BEARER " (upper-case scheme, empty token)
passes the header gate and hands the empty token string to the
validator. -/
theorem C10_case_insensitive_scheme_witness :
    (Middleware (fun _ => .error .missingKid) "BEARER ").1 = some "" :=
  (C10_case_insensitive_scheme (fun _ => .error .missingKid) "BEARER "
    "BEARER" "" (by decide) (by decide)).1

/-- C8: the client's token selection returns the identity-token field when
it is non-empty, otherwise the access-token field when that is non-empty,
and fails with the no-token-received error exactly when both are empty. -/
theorem C8_token_selection (resp : DexTokenResponse) :
    (resp.idToken ≠ "" → getOIDCTokenResult resp = .ok resp.idToken) ∧
    (resp.idToken = "" → resp.accessToken ≠ "" →
      getOIDCTokenResult resp = .ok resp.accessToken) ∧
    (getOIDCTokenResult resp = .error "no token received from Dex" ↔
      resp.idToken = "" ∧ resp.accessToken = "") := by
  obtain ⟨idT, acT⟩ := resp
  by_cases hid : idT = ""
  · by_cases hac : acT = ""
    · subst hid
      subst hac
      exact ⟨fun hcontra => absurd rfl hcontra,
        fun _ hcontra => absurd rfl hcontra, by simp [getOIDCTokenResult]⟩
    · subst hid
      exact ⟨fun hcontra => absurd rfl hcontra,
        fun _ _ => by simp [getOIDCTokenResult, hac],
        by simp [getOIDCTokenResult, hac]⟩
  · exact ⟨fun _ => by simp [getOIDCTokenResult, hid],
      fun he => absurd he hid, by simp [getOIDCTokenResult, hid]⟩

/-- Witness for C8: empty identity token falls back to the access token, a
non-empty identity token wins, and two empty fields give the error. -/
theorem C8_token_selection_witness :
    getOIDCTokenResult ⟨"", "acctoken"⟩ = .ok "acctoken" ∧
    getOIDCTokenResult ⟨"idtok", "acctoken"⟩ = .ok "idtok" ∧
    getOIDCTokenResult ⟨"", ""⟩ = .error "no token received from Dex" := by
  refine ⟨?_, ?_, ?_⟩
  · exact (C8_token_selection ⟨"", "acctoken"⟩).2.1 rfl (by decide)
  · exact (C8_token_selection ⟨"idtok", "acctoken"⟩).1 (by decide)
  · exact (C8_token_selection ⟨"", ""⟩).2.2.mpr ⟨rfl, rfl⟩

theorem list_isEmpty_true_iff (l : List String) : l.isEmpty = true ↔ l = [] := by
  cases l <;> simp

/-- C9: whenever the server command proceeds to construct its validator,
the allowed-groups list it uses is non-empty: when the environment's
allowed-groups variable is unset or parses to the empty list, the default
`["engineering"]` is applied, and otherwise the parsed list is used — the
empty-set "any authenticated identity" mode is never active. -/
theorem C9_server_default_groups (env : Env) (cfg : Config)
    (h : serverStartConfig env = some cfg) :
    cfg.allowedGroups ≠ [] ∧
    (parseAllowedGroups env.oidcAllowedGroups = [] →
      cfg.allowedGroups = ["engineering"]) ∧
    (parseAllowedGroups env.oidcAllowedGroups ≠ [] →
      cfg.allowedGroups = parseAllowedGroups env.oidcAllowedGroups) := by
  simp only [serverStartConfig] at h
  split at h
  · exact Option.noConfusion h
  · split at h
    · exact Option.noConfusion h
    · split at h
      next hEmpty =>
        injection h with h
        subst h
        have hpe : parseAllowedGroups env.oidcAllowedGroups = [] := by
          have h2 := (list_isEmpty_true_iff
            (LoadConfigFromEnv env).allowedGroups).mp hEmpty
          exact h2
        exact ⟨by simp, fun _ => rfl, fun hne2 => absurd hpe hne2⟩
      next hEmpty =>
        injection h with h
        subst h
        have hpne : parseAllowedGroups env.oidcAllowedGroups ≠ [] := by
          intro hcontra
          exact hEmpty ((list_isEmpty_true_iff
            (LoadConfigFromEnv env).allowedGroups).mpr hcontra)
        exact ⟨hpne, fun hcontra => absurd hcontra hpne, fun _ => rfl⟩

/-- Witness for C9: with the allowed-groups variable unset, the server
proceeds with allowed groups `["engineering"]`. -/
theorem C9_server_default_groups_witness :
    serverStartConfig
      ⟨"https://dex.example.com", "https://svc.example.com", ""⟩ =
      some ⟨"https://dex.example.com", "https://svc.example.com",
        ["engineering"]⟩ ∧
    (⟨"https://dex.example.com", "https://svc.example.com",
      ["engineering"]⟩ : Config).allowedGroups = ["engineering"] :=
  ⟨rfl, (C9_server_default_groups
    ⟨"https://dex.example.com", "https://svc.example.com", ""⟩
    ⟨"https://dex.example.com", "https://svc.example.com", ["engineering"]⟩
    rfl).2.1 rfl⟩

end K8sctl
